import Mathlib

/-!
Shallow embedding of `src/FolderSynchronize.py` (class `FolderSynchronize`).

Modelling conventions:
* A filesystem tree is an `Entry`: a regular file carries a `readable` flag
  (false models a file whose `open`/`read` raises `IOError`) and its byte
  content as `List Nat`; a directory carries an ordered `Forest` of named
  children (the order determinizes `os.scandir` listing order, which CPython
  leaves arbitrary).
* Paths are component lists (`List String`) relative to a tree root;
  `os.path.join(root, relpath(p, other_root))` becomes list append.
* The MD5 object is modelled by the byte stream it absorbed (`md5Absorb`);
  `hexdigest` is the identity on that stream, i.e. an idealized
  collision-free digest.  The chunked read loop of `create_hash_file` is
  embedded faithfully (`readBlocks`).
* `ThreadPoolExecutor.map` in `copy_files_executor` submits every task and
  stores each task's exception in a future that the program never reads, so
  the embedding runs the tasks sequentially and discards per-task errors.
* Exceptions are `Except`; an escaping exception carries the state at the
  raise point so the surrounding `while True: ... except Exception: exit(1)`
  loop of `__main__` can be modelled (`run_single_cycle`).
-/

namespace FolderSync

mutual
/-- Filesystem entries: regular files (with a readability flag modelling
I/O failure on read, and byte content) and directories with an ordered
list of named children. -/
inductive Entry where
  | file (readable : Bool) (content : List Nat)
  | dir (children : Forest)
deriving Repr, DecidableEq
inductive Forest where
  | nil : Forest
  | cons (name : String) (e : Entry) (rest : Forest) : Forest
deriving Repr, DecidableEq
end

/-- IO errors raised by the modelled filesystem operations. -/
inductive IOErr where
  | fileNotFound
  | isADirectory
  | notADirectory
  | dirNotEmpty
  | fileExists
  | readFailed (p : List String)
deriving Repr, DecidableEq

namespace Forest

/-- Look up a child by name (first match, in listing order). -/
def find? (n : String) : Forest → Option Entry
  | .nil => none
  | .cons m e rest => if m = n then some e else find? n rest

/-- Replace the (first) child named `n` by `e`. -/
def replaceChild (n : String) (e' : Entry) : Forest → Forest
  | .nil => .nil
  | .cons m e rest => if m = n then .cons m e' rest else .cons m e (replaceChild n e' rest)

/-- Remove the (first) child named `n`. -/
def eraseChild (n : String) : Forest → Forest
  | .nil => .nil
  | .cons m e rest => if m = n then rest else .cons m e (eraseChild n rest)

/-- Set the child named `n` to `r`: `none` deletes it, `some e` replaces it
(appending at the end when absent). -/
def setChild (n : String) (r : Option Entry) (cs : Forest) : Forest :=
  match r with
  | none => cs.eraseChild n
  | some e =>
    match cs.find? n with
    | some _ => cs.replaceChild n e
    | none =>
      let rec append : Forest → Forest
        | .nil => .cons n e .nil
        | .cons m x rest => .cons m x (append rest)
      append cs

/-- Names of the directory children, in listing order (`dirs` of `os.walk`). -/
def dirNames : Forest → List String
  | .nil => []
  | .cons m (.dir _) rest => m :: dirNames rest
  | .cons _ (.file _ _) rest => dirNames rest

/-- Names of the file children, in listing order (`files` of `os.walk`). -/
def fileNames : Forest → List String
  | .nil => []
  | .cons m (.file _ _) rest => m :: fileNames rest
  | .cons _ (.dir _) rest => fileNames rest

end Forest

/-- Resolve a relative component path inside a tree. -/
def lookup : Entry → List String → Option Entry
  | e, [] => some e
  | .dir cs, n :: rest =>
    match cs.find? n with
    | some c => lookup c rest
    | none => none
  | .file _ _, _ :: _ => none

/-- Resolve a path against a possibly-absent root. -/
def lookupP (fs : Option Entry) (p : List String) : Option Entry :=
  match fs with
  | none => none
  | some e => lookup e p

/-- Truth of `os.path.exists` for a modelled path. -/
def existsPath (fs : Option Entry) (p : List String) : Bool :=
  (lookupP fs p).isSome

/-- Navigate to the parent of the target path and apply `f` to the
(possibly absent) child entry there; `f` returning `none` deletes the
child, `some` replaces or creates it.  Navigation through a missing
component raises `fileNotFound`, through a file `notADirectory`. -/
def updatePath (f : Option Entry → Except IOErr (Option Entry)) :
    Entry → String → List String → Except IOErr Entry
  | .file _ _, _, _ => .error .notADirectory
  | .dir cs, n, [] =>
    match f (cs.find? n) with
    | .error e => .error e
    | .ok r => .ok (.dir (cs.setChild n r))
  | .dir cs, n, m :: rest =>
    match cs.find? n with
    | none => .error .fileNotFound
    | some c =>
      match updatePath f c m rest with
      | .error e => .error e
      | .ok c' => .ok (.dir (cs.replaceChild n c'))

/-- Leaf action of `os.remove`: unlink a regular file, raise on a
directory or a missing target. -/
def removeFileChild : Option Entry → Except IOErr (Option Entry)
  | some (.file _ _) => .ok none
  | some (.dir _) => .error .isADirectory
  | none => .error .fileNotFound

/-- Semantics of `os.remove`: removes a regular file, raises on a
directory or a missing path. -/
def osRemove (fs : Option Entry) (p : List String) : Except IOErr (Option Entry) :=
  match fs, p with
  | none, _ => .error .fileNotFound
  | some _, [] => .error .isADirectory
  | some e, n :: rest =>
    match updatePath removeFileChild e n rest with
    | .error er => .error er
    | .ok e' => .ok (some e')

/-- Leaf action of `os.rmdir`: remove an empty directory, raise on a
non-empty directory, a file or a missing target. -/
def removeEmptyDirChild : Option Entry → Except IOErr (Option Entry)
  | some (.dir .nil) => .ok none
  | some (.dir (.cons _ _ _)) => .error .dirNotEmpty
  | some (.file _ _) => .error .notADirectory
  | none => .error .fileNotFound

/-- Semantics of `os.rmdir`: removes an empty directory; raises when the
target is missing, a file, or non-empty.  Removing the modelled root
(`p = []`) yields an absent root. -/
def rmdirP (fs : Option Entry) (p : List String) : Except IOErr (Option Entry) :=
  match fs, p with
  | none, _ => .error .fileNotFound
  | some (.dir .nil), [] => .ok none
  | some (.dir (.cons _ _ _)), [] => .error .dirNotEmpty
  | some (.file _ _), [] => .error .notADirectory
  | some e, n :: rest =>
    match updatePath removeEmptyDirChild e n rest with
    | .error er => .error er
    | .ok e' => .ok (some e')

/-- Proper ancestors of a path, deepest first, ending with the root `[]`
(the prune sequence of `os.removedirs`). -/
def ancestors (p : List String) : List (List String) :=
  (List.range p.length).reverse.map (fun k => p.take k)

/-- Prune loop of `os.removedirs`: try `rmdir` on each ancestor in turn and
stop at the first failure (CPython swallows the `OSError` and breaks).
Ancestors of the modelled root are outside the model and assumed
non-empty, which matches stopping after the root. -/
def pruneFold : List (List String) → Option Entry → Option Entry
  | [], fs => fs
  | q :: rest, fs =>
    match rmdirP fs q with
    | .ok fs' => pruneFold rest fs'
    | .error _ => fs

/-- Semantics of `os.removedirs`: `rmdir` the leaf (errors propagate),
then prune now-empty ancestor directories upward. -/
def removedirs (fs : Option Entry) (p : List String) : Except IOErr (Option Entry) :=
  match rmdirP fs p with
  | .error e => .error e
  | .ok fs' => .ok (pruneFold (ancestors p) fs')

/-- Chain of fresh directories for the tail of an `os.makedirs` call. -/
def mkChain : List String → Entry
  | [] => .dir .nil
  | n :: rest => .dir (.cons n (mkChain rest) .nil)

/-- Semantics of `os.makedirs` inside an existing tree: create all missing
intermediate directories; raise `fileExists` when the leaf already exists
and `notADirectory` when an intermediate component is a file. -/
def makedirsE : List String → Entry → Except IOErr Entry
  | [], _ => .error .fileExists
  | n :: rest, .dir cs =>
    match cs.find? n with
    | some c =>
      match makedirsE rest c with
      | .error e => .error e
      | .ok c' => .ok (.dir (cs.replaceChild n c'))
    | none => .ok (.dir (cs.setChild n (some (mkChain rest))))
  | _ :: _, .file _ _ => .error .notADirectory

/-- Embedding of `FolderSynchronize.create_directory` / `os.makedirs`
against a possibly-absent root: an absent root is created together with
the remaining chain. -/
def create_directory (fs : Option Entry) (p : List String) : Except IOErr (Option Entry) :=
  match fs with
  | none => .ok (some (mkChain p))
  | some e =>
    match makedirsE p e with
    | .error er => .error er
    | .ok e' => .ok (some e')

/-- Successive blocks returned by `fp.read(chunk)` in the hashing loop of
`create_hash_file`; the fuel (always called with `data.length + 1`) is an
embedding artifact bounding the loop, which the source bounds by reaching
end of file. -/
def readBlocksAux (chunk : Nat) : Nat → List Nat → List (List Nat)
  | 0, _ => []
  | fuel + 1, data =>
    let block := data.take chunk
    if block.isEmpty then []
    else block :: readBlocksAux chunk fuel (data.drop chunk)

/-- Blocks fed to `file_md5.update` by the read loop of `create_hash_file`. -/
def readBlocks (chunk : Nat) (data : List Nat) : List (List Nat) :=
  readBlocksAux chunk (data.length + 1) data

/-- Byte stream absorbed by the MD5 object after the read loop. -/
def md5Absorb (chunk : Nat) (data : List Nat) : List Nat :=
  (readBlocks chunk data).flatten

/-- Digest rendering (`hexdigest`), modelled as the absorbed byte stream
itself: an idealized collision-free digest. -/
def hexdigest (absorbed : List Nat) : List Nat := absorbed

/-- Embedding of `FolderSynchronize.create_hash_file`: open the file
(raising when it is missing or a directory), stream it in chunks of
`chunk` bytes (`FolderSyncConfig.hashing_file_chunk_size`) and return the
digest; an unreadable file raises `readFailed`. -/
def create_hash_file (chunk : Nat) (root : Option Entry) (file_path : List String) :
    Except IOErr (List Nat) :=
  match lookupP root file_path with
  | none => .error .fileNotFound
  | some (.dir _) => .error .isADirectory
  | some (.file false _) => .error (.readFailed file_path)
  | some (.file true content) => .ok (hexdigest (md5Absorb chunk content))

/-- Embedding of `FolderSynchronize.is_file_modified`: compares the two
hexdigests with `==`, hence returns `true` when the digests are EQUAL
(the inversion its caller compensates for with `not`). -/
def is_file_modified (chunk : Nat) (srcRoot destRoot : Option Entry)
    (source_file destination_file : List String) : Except IOErr Bool :=
  match create_hash_file chunk srcRoot source_file with
  | .error e => .error e
  | .ok a =>
    match create_hash_file chunk destRoot destination_file with
    | .error e => .error e
    | .ok b => .ok (a == b)

/-- Modelled from the spec: `config.py` (module `FolderSyncConfig`) is not
part of `src/`; the spec enumerates its recognized options as the hashing
chunk size, the file copy batch size and the max worker count. -/
structure FolderSyncConfig where
  hashing_file_chunk_size : Nat
  file_copy_batch_size : Nat
  max_workers : Nat
deriving Repr, DecidableEq

/-- Reason recorded in a copy task (element 2 of the Python list). -/
inductive Reason where
  | new
  | modified
deriving Repr, DecidableEq

/-- Embedding of the `[src_file, dest_file, 'new' | 'modified']` lists
appended to `files_to_copy`. -/
structure CopyTask where
  src : List String
  dst : List String
  reason : Reason
deriving Repr, DecidableEq

/-- Semantic log events, one per `logger.<level>` call reachable from the
synchronization pass and the `__main__` loop. -/
inductive LogEvent where
  | infoCopyNew (src dst : List String)
  | infoCopyModified (src dst : List String)
  | infoDirCreated (p : List String)
  | infoDirDeleted (p : List String)
  | infoFileDeleted (p : List String)
  | infoOldFileDeleted (p : List String)
  | infoReplicaCreated
  | errorSourceMissing
  | errorTopLevel (e : IOErr)
  | debugNotModified
  | debugFileNotPresent (p : List String)
  | debugThreshold
  | debugCopyCompleted
  | debugRemaining
deriving Repr, DecidableEq

/-- Error-level log events (`logger.error` calls). -/
def LogEvent.isErrorEvent : LogEvent → Bool
  | .errorSourceMissing => true
  | .errorTopLevel _ => true
  | _ => false

/-- Leaf action of the destination write in `shutil.copy2`: create or
overwrite a regular file, raise when the target is a directory. -/
def writeFileChild (content : List Nat) : Option Entry → Except IOErr (Option Entry)
  | some (.dir _) => .error .isADirectory
  | _ => .ok (some (.file true content))

/-- Info event `copy_file` emits for a task before attempting the copy
(`Copying new file ...` vs `Updating modified file ...`). -/
def copyAnnounce (t : CopyTask) : LogEvent :=
  match t.reason with
  | .new => .infoCopyNew t.src t.dst
  | .modified => .infoCopyModified t.src t.dst

/-- Semantics of `shutil.copy2(s[0], s[1])`: read the source file (raising
when it is missing, unreadable or a directory) and write its content at
the destination; a destination that is an existing directory receives the
file under the source's basename, as `shutil.copy2` does. -/
def shutil_copy2 (srcRoot fs : Option Entry) (s d : List String) :
    Except IOErr (Option Entry) :=
  match lookupP srcRoot s with
  | none => .error .fileNotFound
  | some (.dir _) => .error .isADirectory
  | some (.file false _) => .error (.readFailed s)
  | some (.file true content) =>
    let target :=
      match lookupP fs d with
      | some (.dir _) => d ++ [s.getLastD ""]
      | _ => d
    match fs, target with
    | none, _ => .error .fileNotFound
    | some _, [] => .error .isADirectory
    | some e, n :: rest =>
      match updatePath (writeFileChild content) e n rest with
      | .error er => .error er
      | .ok e' => .ok (some e')

/-- Embedding of `FolderSynchronize.copy_file`: log the action (new vs
modified) and then attempt the copy; the info event precedes the copy, so
it is emitted even when the copy subsequently fails. -/
def copy_file (srcRoot fs : Option Entry) (t : CopyTask) :
    Except IOErr (Option Entry) × List LogEvent :=
  (shutil_copy2 srcRoot fs t.src t.dst, [copyAnnounce t])

/-- Embedding of `FolderSynchronize.copy_files_executor`: a sequential
determinization of `ThreadPoolExecutor.map` over the task list.  `map`
submits every task; each task's exception is stored in a future whose
result the program never retrieves, so a failing task leaves the tree
unchanged and its error is discarded without any log entry. -/
def copy_files_executor (srcRoot : Option Entry) (max_workers : Nat) :
    List CopyTask → Option Entry → Option Entry × List LogEvent
  | [], fs => (fs, [])
  | t :: rest, fs =>
    let r := copy_file srcRoot fs t
    let fs' :=
      match r.1 with
      | .ok f => f
      | .error _ => fs
    let tail := copy_files_executor srcRoot max_workers rest fs'
    (tail.1, r.2 ++ tail.2)

/-- State threaded through the create/copy phase: the replica tree, the
pending `files_to_copy` batch, the log so far, and the trace of task
batches handed to `copy_files_executor` (one list per flush). -/
structure CreateSt where
  fs : Option Entry
  pending : List CopyTask
  log : List LogEvent
  flushes : List (List CopyTask)
deriving Repr, DecidableEq

/-- One flush of `files_to_copy` through the executor (lines 190-192 and
196 of the source): run the executor on the pending batch, record the
batch in the flush trace and clear the pending list. -/
def flushPending (srcRoot : Option Entry) (max_workers : Nat) (st : CreateSt) : CreateSt :=
  let r := copy_files_executor srcRoot max_workers st.pending st.fs
  { fs := r.1
    pending := []
    log := st.log ++ r.2
    flushes := st.flushes ++ [st.pending] }

/-- Embedding of `create_new_directory_in_replica_folder` for one walk
level: for each source subdirectory name, create the mirrored replica
directory when it does not yet exist. -/
def create_new_directory_in_replica_folder (path : List String) :
    List String → CreateSt → Except (IOErr × CreateSt) CreateSt
  | [], st => .ok st
  | d :: rest, st =>
    let dest := path ++ [d]
    if existsPath st.fs dest then
      create_new_directory_in_replica_folder path rest st
    else
      match create_directory st.fs dest with
      | .error e => .error (e, st)
      | .ok fs' =>
        create_new_directory_in_replica_folder path rest
          { st with fs := fs', log := st.log ++ [.infoDirCreated dest] }

/-- Per-file body of the create/copy loop (lines 174-192 of the source):
when the mirrored replica file exists, compare digests and either skip
(equal) or remove the stale file and append a `modified` task (the batch
threshold is NOT checked on this branch); when it is absent, append a
`new` task and flush through the executor once the pending batch has
reached `file_copy_batch_size`. -/
def processSourceFile (cfg : FolderSyncConfig) (srcRoot : Option Entry)
    (src_file dest_file : List String) (st : CreateSt) :
    Except (IOErr × CreateSt) CreateSt :=
  if existsPath st.fs dest_file then
    match is_file_modified cfg.hashing_file_chunk_size srcRoot st.fs src_file dest_file with
    | .error e => .error (e, st)
    | .ok true => .ok { st with log := st.log ++ [.debugNotModified] }
    | .ok false =>
      match osRemove st.fs dest_file with
      | .error e => .error (e, st)
      | .ok fs' =>
        .ok { st with
              fs := fs',
              log := st.log ++ [.infoOldFileDeleted dest_file],
              pending := st.pending ++ [⟨src_file, dest_file, .modified⟩] }
  else
    let st2 := { st with
                 log := st.log ++ [.debugFileNotPresent dest_file],
                 pending := st.pending ++ [⟨src_file, dest_file, .new⟩] }
    if cfg.file_copy_batch_size ≤ st2.pending.length then
      let st3 := flushPending srcRoot cfg.max_workers
        { st2 with log := st2.log ++ [.debugThreshold] }
      .ok { st3 with log := st3.log ++ [.debugCopyCompleted] }
    else
      .ok st2

/-- Fold of `processSourceFile` over the file names of one walk level. -/
def processFilesLevel (cfg : FolderSyncConfig) (srcRoot : Option Entry)
    (path : List String) : List String → CreateSt → Except (IOErr × CreateSt) CreateSt
  | [], st => .ok st
  | f :: rest, st =>
    match processSourceFile cfg srcRoot (path ++ [f]) (path ++ [f]) st with
    | .error r => .error r
    | .ok st' => processFilesLevel cfg srcRoot path rest st'

mutual
/-- Top-down `os.walk` of the source tree (lines 168-192): at each yielded
directory create the missing replica directories, process the files, then
descend into the subdirectories in listing order.  Walking a file root
yields nothing. -/
def createWalk (cfg : FolderSyncConfig) (srcRoot : Option Entry) :
    Entry → List String → CreateSt → Except (IOErr × CreateSt) CreateSt
  | .file _ _, _, st => .ok st
  | .dir cs, path, st =>
    match create_new_directory_in_replica_folder path cs.dirNames st with
    | .error r => .error r
    | .ok st1 =>
      match processFilesLevel cfg srcRoot path cs.fileNames st1 with
      | .error r => .error r
      | .ok st2 => createWalkForest cfg srcRoot cs path st2

/-- Descend of the top-down walk into the directory children, in order. -/
def createWalkForest (cfg : FolderSyncConfig) (srcRoot : Option Entry) :
    Forest → List String → CreateSt → Except (IOErr × CreateSt) CreateSt
  | .nil, _, st => .ok st
  | .cons _ (.file _ _) rest, path, st => createWalkForest cfg srcRoot rest path st
  | .cons n (.dir cs) rest, path, st =>
    match createWalk cfg srcRoot (.dir cs) (path ++ [n]) st with
    | .error r => .error r
    | .ok st' => createWalkForest cfg srcRoot rest path st'
end

/-- State threaded through the deletion phase. -/
structure DelSt where
  fs : Option Entry
  log : List LogEvent
deriving Repr, DecidableEq

/-- Embedding of `remove_unwanted_files_in_replica_folder` for one walk
level: delete every replica file whose mirrored source path does not
exist. -/
def remove_unwanted_files_in_replica_folder (srcRoot : Option Entry)
    (path : List String) : List String → DelSt → Except (IOErr × DelSt) DelSt
  | [], st => .ok st
  | f :: rest, st =>
    let dest := path ++ [f]
    if existsPath srcRoot dest then
      remove_unwanted_files_in_replica_folder srcRoot path rest st
    else
      match osRemove st.fs dest with
      | .error e => .error (e, st)
      | .ok fs' =>
        remove_unwanted_files_in_replica_folder srcRoot path rest
          { fs := fs', log := st.log ++ [.infoFileDeleted dest] }

/-- Embedding of `remove_unwanted_directories_in_replica_folder` for one
walk level: `os.removedirs` every replica directory whose mirrored source
path does not exist (the prune loop of `removedirs` then also removes
now-empty ancestors). -/
def remove_unwanted_directories_in_replica_folder (srcRoot : Option Entry)
    (path : List String) : List String → DelSt → Except (IOErr × DelSt) DelSt
  | [], st => .ok st
  | d :: rest, st =>
    let dest := path ++ [d]
    if existsPath srcRoot dest then
      remove_unwanted_directories_in_replica_folder srcRoot path rest st
    else
      match removedirs st.fs dest with
      | .error e => .error (e, st)
      | .ok fs' =>
        remove_unwanted_directories_in_replica_folder srcRoot path rest
          { fs := fs', log := st.log ++ [.infoDirDeleted dest] }

mutual
/-- Bottom-up `os.walk` of the replica tree (lines 198-204).  `r0` is the
replica tree as it stands when the walk starts; during the deletion phase
the listing `os.scandir` takes of a directory on first visit always equals
that directory's children in `r0`, because deletions before that visit
touch only disjoint, already-completed subtrees, and the ancestor prune of
`removedirs` removes only empty directories and therefore never one that
still contains the unvisited subtree.  Children are visited before their
parent; at each yield the unwanted files are removed first, then the
unwanted directories. -/
def deleteWalk (srcRoot : Option Entry) :
    Entry → List String → DelSt → Except (IOErr × DelSt) DelSt
  | .file _ _, _, st => .ok st
  | .dir cs, path, st =>
    match deleteWalkForest srcRoot cs path st with
    | .error r => .error r
    | .ok st1 =>
      match remove_unwanted_files_in_replica_folder srcRoot path cs.fileNames st1 with
      | .error r => .error r
      | .ok st2 =>
        remove_unwanted_directories_in_replica_folder srcRoot path cs.dirNames st2

/-- Descend of the bottom-up walk into the directory children, in order. -/
def deleteWalkForest (srcRoot : Option Entry) :
    Forest → List String → DelSt → Except (IOErr × DelSt) DelSt
  | .nil, _, st => .ok st
  | .cons _ (.file _ _) rest, path, st => deleteWalkForest srcRoot rest path st
  | .cons n (.dir cs) rest, path, st =>
    match deleteWalk srcRoot (.dir cs) (path ++ [n]) st with
    | .error r => .error r
    | .ok st' => deleteWalkForest srcRoot rest path st'
end

/-- Outcome of one call to `sync_source_with_replica`: a completed pass, a
fatal `exit(1)` (missing source root), or a propagating exception together
with the state at the raise point. -/
inductive PassResult where
  | ok (replica : Option Entry) (log : List LogEvent) (flushes : List (List CopyTask))
  | fatalStop (replica : Option Entry) (log : List LogEvent)
  | raised (e : IOErr) (replica : Option Entry) (log : List LogEvent)
      (flushes : List (List CopyTask))
deriving Repr, DecidableEq

/-- Replica tree after a pass (at the abort point for non-completed ones). -/
def PassResult.replicaAfter : PassResult → Option Entry
  | .ok r _ _ => r
  | .fatalStop r _ => r
  | .raised _ r _ _ => r

/-- Log emitted by a pass. -/
def PassResult.logOf : PassResult → List LogEvent
  | .ok _ l _ => l
  | .fatalStop _ l => l
  | .raised _ _ l _ => l

/-- Sizes of the task batches handed to `copy_files_executor`, one entry
per flush. -/
def PassResult.flushSizes : PassResult → List Nat
  | .ok _ _ fl => fl.map List.length
  | .fatalStop _ _ => []
  | .raised _ _ _ fl => fl.map List.length

/-- Truth of "the pass ran to completion". -/
def PassResult.completed : PassResult → Bool
  | .ok _ _ _ => true
  | _ => false

/-- Embedding of `FolderSynchronize.sync_source_with_replica` (lines
152-206): abort fatally when the source root is missing; create the
replica root when absent; run the top-down create/copy walk, flushing the
batch at the threshold; flush any remaining batch; then run the bottom-up
deletion walk. -/
def sync_source_with_replica (cfg : FolderSyncConfig)
    (src replica : Option Entry) : PassResult :=
  match src with
  | none => .fatalStop replica [.errorSourceMissing]
  | some srcTree =>
    let init : CreateSt :=
      match replica with
      | none => { fs := some (.dir .nil), pending := [], log := [.infoReplicaCreated], flushes := [] }
      | some r => { fs := some r, pending := [], log := [], flushes := [] }
    match createWalk cfg (some srcTree) srcTree [] init with
    | .error (e, st) => .raised e st.fs st.log st.flushes
    | .ok st =>
      let st1 :=
        if 0 < st.pending.length then
          flushPending (some srcTree) cfg.max_workers
            { st with log := st.log ++ [.debugRemaining] }
        else st
      match st1.fs with
      | none => .ok st1.fs st1.log st1.flushes
      | some r0 =>
        match deleteWalk (some srcTree) r0 [] { fs := some r0, log := [] } with
        | .error (e, dst) => .raised e dst.fs (st1.log ++ dst.log) st1.flushes
        | .ok dst => .ok dst.fs (st1.log ++ dst.log) st1.flushes

/-- Outcome of one iteration of the `while True` loop in `__main__`. -/
inductive RunResult where
  | exited (code : Nat) (replica : Option Entry) (log : List LogEvent)
  | continued (replica : Option Entry) (log : List LogEvent)
deriving Repr, DecidableEq

/-- One iteration of the `__main__` loop (lines 263-270): a completed pass
sleeps and loops; the in-pass `exit(1)` raises `SystemExit`, which
`except Exception` does not catch, terminating the process with code 1; a
propagating exception is caught, logged with `logger.error`, and the
process exits with code 1. -/
def run_single_cycle (cfg : FolderSyncConfig) (src replica : Option Entry) : RunResult :=
  match sync_source_with_replica cfg src replica with
  | .ok r l _ => .continued r l
  | .fatalStop r l => .exited 1 r l
  | .raised e r l _ => .exited 1 r (l ++ [.errorTopLevel e])

/-! Concrete fixtures used by the verification theorems below. -/

/-- Default configuration fixture: chunk size 4, batch size 10, 4 workers. -/
def cfg0 : FolderSyncConfig := ⟨4, 10, 4⟩

/-- Configuration fixture with `file_copy_batch_size = 2`. -/
def cfg2 : FolderSyncConfig := ⟨4, 2, 4⟩

/-- Source fixture: one empty directory `d/`. -/
def src1 : Entry := .dir (.cons "d" (.dir .nil) .nil)

/-- Replica fixture: `d/e/` where only `d/` exists under the source. -/
def rep1 : Entry := .dir (.cons "d" (.dir (.cons "e" (.dir .nil) .nil)) .nil)

/-- Scenario C source: the empty tree. -/
def srcC : Entry := .dir .nil

/-- Scenario C replica: a file `b.txt` with content "x" and an empty
subdirectory `sub/`. -/
def repC : Entry := .dir (.cons "b.txt" (.file true [120]) (.cons "sub" (.dir .nil) .nil))

/-- Source fixture with three files `a`, `b`, `c`. -/
def src3 : Entry :=
  .dir (.cons "a" (.file true [1]) (.cons "b" (.file true [2]) (.cons "c" (.file true [3]) .nil)))

/-- Replica fixture where `a`, `b`, `c` all exist with different content. -/
def rep3 : Entry :=
  .dir (.cons "a" (.file true [9]) (.cons "b" (.file true [9]) (.cons "c" (.file true [9]) .nil)))

/-- Source fixture whose single file `a` is unreadable. -/
def srcU : Entry := .dir (.cons "a" (.file false [1]) .nil)

/-- Replica fixture with a readable file `a` of different content. -/
def repU : Entry := .dir (.cons "a" (.file true [2]) .nil)

/-- Source root fixture for executor tests: one readable file `x`. -/
def srcX : Option Entry := some (.dir (.cons "x" (.file true [1]) .nil))

/-- Task batch whose first task has a missing source file `m` (its copy
raises) and whose second task copies the existing file `x`. -/
def tasksX : List CopyTask := [⟨["m"], ["m"], .new⟩, ⟨["x"], ["x"], .new⟩]

/-! Helper lemmas. -/

/-- When a path resolves to a regular file, the `os.remove` navigation
succeeds. -/
theorem updatePath_removeFile_ok : ∀ (rest : List String) (e : Entry) (n : String)
    (r : Bool) (b : List Nat), lookup e (n :: rest) = some (.file r b) →
    ∃ e', updatePath removeFileChild e n rest = .ok e' := by
  intro rest
  induction rest with
  | nil =>
    intro e n r b h
    cases e with
    | file rd c => simp [lookup] at h
    | dir cs =>
      rcases hf : cs.find? n with _ | c
      · simp [lookup, hf] at h
      · simp [lookup, hf] at h
        exact ⟨.dir (cs.setChild n none),
          by simp [updatePath, hf, h, removeFileChild]⟩
  | cons m rest ih =>
    intro e n r b h
    cases e with
    | file rd c => simp [lookup] at h
    | dir cs =>
      rcases hf : cs.find? n with _ | c
      · simp [lookup, hf] at h
      · simp only [lookup, hf] at h
        obtain ⟨c', hc⟩ := ih c m r b h
        exact ⟨.dir (cs.replaceChild n c'), by simp [updatePath, hf, hc]⟩

/-- `os.remove` succeeds on any path that resolves to a regular file. -/
theorem osRemove_ok_of_file (fs : Option Entry) (p : List String) (r : Bool) (b : List Nat)
    (h : lookupP fs p = some (.file r b)) (hne : p ≠ []) :
    ∃ fs', osRemove fs p = .ok fs' := by
  rcases fs with _ | e
  · simp [lookupP] at h
  · rcases p with _ | ⟨n, rest⟩
    · exact absurd rfl hne
    · obtain ⟨e', he⟩ := updatePath_removeFile_ok rest e n r b (by simpa [lookupP] using h)
      exact ⟨some e', by simp [osRemove, he]⟩

/-- The hashing loop consumes the whole file: for a positive chunk size the
concatenation of the blocks read is the file content. -/
theorem readBlocksAux_flatten (chunk : Nat) (hc : 1 ≤ chunk) :
    ∀ (fuel : Nat) (data : List Nat), data.length < fuel →
      (readBlocksAux chunk fuel data).flatten = data := by
  intro fuel
  induction fuel with
  | zero => intro data h; exact absurd h (Nat.not_lt_zero _)
  | succ fuel ih =>
    intro data h
    by_cases hd : data = []
    · subst hd; simp [readBlocksAux]
    · have hblk : (data.take chunk).isEmpty = false := by
        rcases data with _ | ⟨x, xs⟩
        · exact absurd rfl hd
        · rcases chunk with _ | ck
          · exact absurd hc (by omega)
          · simp [List.take]
      simp only [readBlocksAux, hblk, Bool.false_eq_true, if_false, List.flatten_cons]
      rw [ih (data.drop chunk) ?_, List.take_append_drop]
      have h1 : 1 ≤ data.length := by
        rcases data with _ | _
        · exact absurd rfl hd
        · simp
      simp only [List.length_drop]
      omega

/-- Every block the hashing loop reads has length at most the chunk size. -/
theorem readBlocksAux_bounded (chunk : Nat) :
    ∀ (fuel : Nat) (data : List Nat) (blk : List Nat),
      blk ∈ readBlocksAux chunk fuel data → blk.length ≤ chunk := by
  intro fuel
  induction fuel with
  | zero => intro data blk h; simp [readBlocksAux] at h
  | succ fuel ih =>
    intro data blk h
    by_cases he : (data.take chunk).isEmpty
    · simp [readBlocksAux, he] at h
    · simp only [readBlocksAux, he, Bool.false_eq_true, if_false, List.mem_cons] at h
      rcases h with h | h
      · subst h; exact List.length_take_le chunk data
      · exact ih _ _ h

/-! Claim theorems. -/

/-- C1: refuted on the code.  With source `{d/}` and replica `{d/e/}` the
pass completes, yet `os.removedirs`' ancestor pruning removes the replica
directory `d` — whose mirrored source directory exists — and then the
replica root itself, contradicting the claim that no replica path with an
existing source counterpart (in particular the replica root and mirrored
directories) is ever deleted by the pass. -/
theorem C1_mirrored_directories_removed :
    (sync_source_with_replica cfg0 (some src1) (some rep1)).completed = true
    ∧ lookup src1 ["d"] = some (.dir .nil)
    ∧ lookup rep1 ["d"] = some (.dir (.cons "e" (.dir .nil) .nil))
    ∧ (sync_source_with_replica cfg0 (some src1) (some rep1)).replicaAfter = none := by
  decide

/-- C2: refuted on the code.  The batch threshold is only checked after
appending a `new` task, so with batch size 2 and three `modified` tasks the
single flush hands the executor 3 > 2 tasks. -/
theorem C2_flush_exceeds_batch_size :
    cfg2.file_copy_batch_size = 2
    ∧ (sync_source_with_replica cfg2 (some src3) (some rep3)).flushSizes = [3] := by
  decide

/-- C4: when the source root does not exist the pass aborts fatally
(`exit(1)`, uncaught `SystemExit`) with the replica untouched and no
create, copy or delete operation performed — the log holds only the error
event and no flush reaches the executor. -/
theorem C4_source_missing_aborts (cfg : FolderSyncConfig) (replica : Option Entry) :
    sync_source_with_replica cfg none replica =
      .fatalStop replica [.errorSourceMissing]
    ∧ run_single_cycle cfg none replica = .exited 1 replica [.errorSourceMissing] :=
  ⟨rfl, rfl⟩

/-- C5: refuted on the code.  In scenario C (source empty, replica
`{b.txt, sub/}`) the pass does remove `b.txt` and `sub/`, but
`os.removedirs` then prunes the now-empty replica root as well, so the
root does not survive as an empty directory as the claim states. -/
theorem C5_scenario_c_root_pruned :
    sync_source_with_replica cfg0 (some srcC) (some repC) =
      .ok none [.infoFileDeleted ["b.txt"], .infoDirDeleted ["sub"]] []
    ∧ (sync_source_with_replica cfg0 (some srcC) (some repC)).replicaAfter ≠
        some (.dir .nil) := by
  decide

/-- C6 counterexample: a failing fingerprint read is not recoverable — the
`IOError` escapes `sync_source_with_replica`, the `__main__` loop logs it
and the process exits with code 1, instead of logging and continuing with
the other items. -/
theorem C6_fingerprint_error_terminates :
    run_single_cycle cfg0 (some srcU) (some repU) =
      .exited 1 (some repU) [.errorTopLevel (.readFailed ["a"])] := by
  decide

/-- C6 amended: whenever hashing hits an unreadable source file whose
mirrored replica file exists, the exception propagates out of the pass;
the top-level loop logs it and terminates the process with exit code 1,
whatever the file contents are. -/
theorem C6_amended_fingerprint_error_fatal (cfg : FolderSyncConfig) (c₁ c₂ : List Nat) :
    run_single_cycle cfg (some (.dir (.cons "a" (.file false c₁) .nil)))
        (some (.dir (.cons "a" (.file true c₂) .nil))) =
      .exited 1 (some (.dir (.cons "a" (.file true c₂) .nil)))
        [.errorTopLevel (.readFailed ["a"])] :=
  rfl

/-- C7: refuted on the code.  With source `{d/}` and replica `{d/e/}` the
first pass prunes the replica root away, and the second pass recreates the
root and `d/`, so the replica tree after the second pass differs from the
tree after the first — the double pass is not idempotent. -/
theorem C7_second_pass_changes_replica :
    (sync_source_with_replica cfg0 (some src1)
        ((sync_source_with_replica cfg0 (some src1) (some rep1)).replicaAfter)).replicaAfter
      ≠ (sync_source_with_replica cfg0 (some src1) (some rep1)).replicaAfter := by
  decide

/-- C9 counterexample: the copy of the first task raises (missing source
file), the executor still attempts and completes the second task, but no
error-level event is ever logged for the failure — the exception sits in a
future whose result is never read — refuting the claim that a failing copy
task is logged. -/
theorem C9_failure_not_logged :
    shutil_copy2 srcX (some (.dir .nil)) ["m"] ["m"] = .error .fileNotFound
    ∧ copy_files_executor srcX 4 tasksX (some (.dir .nil)) =
        (some (.dir (.cons "x" (.file true [1]) .nil)),
         [.infoCopyNew ["m"] ["m"], .infoCopyNew ["x"] ["x"]])
    ∧ (copy_files_executor srcX 4 tasksX (some (.dir .nil))).2.filter
        LogEvent.isErrorEvent = [] :=
  ⟨rfl, rfl, rfl⟩

/-- C9 amended: every task in a batch is independently attempted — the
executor's log announces each task in order regardless of earlier
failures, the batch is never aborted, and a failing task's exception is
silently discarded (no error-level event is emitted). -/
theorem C9_amended_tasks_attempted_failures_silent (srcRoot : Option Entry) (w : Nat)
    (tasks : List CopyTask) (fs : Option Entry) :
    (copy_files_executor srcRoot w tasks fs).2 = tasks.map copyAnnounce
    ∧ ∀ ev ∈ (copy_files_executor srcRoot w tasks fs).2, ev.isErrorEvent = false := by
  have hlog : ∀ (ts : List CopyTask) (g : Option Entry),
      (copy_files_executor srcRoot w ts g).2 = ts.map copyAnnounce := by
    intro ts
    induction ts with
    | nil => intro g; rfl
    | cons t rest ih => intro g; simp [copy_files_executor, copy_file, ih]
  refine ⟨hlog tasks fs, ?_⟩
  intro ev hev
  rw [hlog tasks fs] at hev
  obtain ⟨t, _, rfl⟩ := List.mem_map.mp hev
  cases h : t.reason <;> simp [copyAnnounce, h, LogEvent.isErrorEvent]

/-- Source root fixture with one readable file `a` of content `[1]`. -/
def srcW : Option Entry := some (.dir (.cons "a" (.file true [1]) .nil))

/-- Replica root fixture with one readable file `a` of content `[2]`. -/
def dstW : Option Entry := some (.dir (.cons "a" (.file true [2]) .nil))

/-- Create-phase state fixture over the replica `dstW`. -/
def stW : CreateSt := ⟨dstW, [], [], []⟩

/-- C3: for a source file whose mirrored replica file exists, differing
fingerprints make the pass remove the stale replica file and append the
copy task classified `modified`, while equal fingerprints leave the tree
and the pending batch untouched (only a debug event is logged). -/
theorem C3_present_file_classification (cfg : FolderSyncConfig) (srcRoot : Option Entry)
    (st : CreateSt) (src_file dest_file : List String) (a b : List Nat)
    (hs : lookupP srcRoot src_file = some (.file true a))
    (hd : lookupP st.fs dest_file = some (.file true b))
    (hne : dest_file ≠ []) :
    (hexdigest (md5Absorb cfg.hashing_file_chunk_size a) ≠
        hexdigest (md5Absorb cfg.hashing_file_chunk_size b) →
      ∃ fs', osRemove st.fs dest_file = .ok fs' ∧
        processSourceFile cfg srcRoot src_file dest_file st =
          .ok { st with
                fs := fs'
                log := st.log ++ [.infoOldFileDeleted dest_file]
                pending := st.pending ++ [⟨src_file, dest_file, .modified⟩] })
    ∧ (hexdigest (md5Absorb cfg.hashing_file_chunk_size a) =
        hexdigest (md5Absorb cfg.hashing_file_chunk_size b) →
      processSourceFile cfg srcRoot src_file dest_file st =
        .ok { st with log := st.log ++ [.debugNotModified] }) := by
  have hif : is_file_modified cfg.hashing_file_chunk_size srcRoot st.fs src_file dest_file =
      .ok (hexdigest (md5Absorb cfg.hashing_file_chunk_size a) ==
          hexdigest (md5Absorb cfg.hashing_file_chunk_size b)) := by
    simp [is_file_modified, create_hash_file, hs, hd]
  have hex : existsPath st.fs dest_file = true := by simp [existsPath, hd]
  constructor
  · intro hneq
    obtain ⟨fs', hrm⟩ := osRemove_ok_of_file st.fs dest_file true b hd hne
    have hbe : (hexdigest (md5Absorb cfg.hashing_file_chunk_size a) ==
        hexdigest (md5Absorb cfg.hashing_file_chunk_size b)) = false :=
      beq_eq_false_iff_ne.mpr hneq
    refine ⟨fs', hrm, ?_⟩
    simp [processSourceFile, hex, hif, hbe, hrm]
  · intro heq
    have hbe : (hexdigest (md5Absorb cfg.hashing_file_chunk_size a) ==
        hexdigest (md5Absorb cfg.hashing_file_chunk_size b)) = true :=
      beq_iff_eq.mpr heq
    simp [processSourceFile, hex, hif, hbe]

/-- C3 witness: concrete instance with digests `[1]` versus `[2]`. -/
theorem C3_witness :
    ∃ fs', osRemove stW.fs ["a"] = .ok fs' ∧
      processSourceFile cfg0 srcW ["a"] ["a"] stW =
        .ok { stW with
              fs := fs'
              log := stW.log ++ [.infoOldFileDeleted ["a"]]
              pending := stW.pending ++ [⟨["a"], ["a"], .modified⟩] } :=
  (C3_present_file_classification cfg0 srcW stW ["a"] ["a"] [1] [2] rfl rfl
    (by decide)).1 (by decide)

/-- C8: the fingerprint reads the file in blocks of at most the chunk
size, the absorbed stream is independent of the chunk size used (for any
positive chunk sizes), and the digests of two readable files are equal
exactly when their contents are equal. -/
theorem C8_fingerprint_chunking (c₁ c₂ : Nat) (data a b : List Nat)
    (root₁ root₂ : Option Entry) (p₁ p₂ : List String)
    (h₁ : 1 ≤ c₁) (h₂ : 1 ≤ c₂)
    (ha : lookupP root₁ p₁ = some (.file true a))
    (hb : lookupP root₂ p₂ = some (.file true b)) :
    (∀ blk ∈ readBlocks c₁ data, blk.length ≤ c₁)
    ∧ md5Absorb c₁ data = md5Absorb c₂ data
    ∧ (create_hash_file c₁ root₁ p₁ = create_hash_file c₁ root₂ p₂ ↔ a = b) := by
  have habs : ∀ (c : Nat) (d : List Nat), 1 ≤ c → md5Absorb c d = d := by
    intro c d hc
    exact readBlocksAux_flatten c hc (d.length + 1) d (Nat.lt_succ_self _)
  refine ⟨fun blk h => readBlocksAux_bounded c₁ _ data blk h, ?_, ?_⟩
  · rw [habs c₁ data h₁, habs c₂ data h₂]
  · simp [create_hash_file, ha, hb, hexdigest, habs c₁ a h₁, habs c₁ b h₁]

/-- C8 witness: chunk sizes 2 and 3 over a five-byte file, and digest
comparison of the fixture files with contents `[1]` and `[2]`. -/
theorem C8_witness :
    md5Absorb 2 [1, 2, 3, 4, 5] = md5Absorb 3 [1, 2, 3, 4, 5]
    ∧ (create_hash_file 2 srcW ["a"] = create_hash_file 2 dstW ["a"] ↔ [1] = [2]) :=
  ⟨(C8_fingerprint_chunking 2 3 [1, 2, 3, 4, 5] [1] [2] srcW dstW ["a"] ["a"]
      (by decide) (by decide) rfl rfl).2.1,
   (C8_fingerprint_chunking 2 3 [1, 2, 3, 4, 5] [1] [2] srcW dstW ["a"] ["a"]
      (by decide) (by decide) rfl rfl).2.2⟩

/-- C10: `is_file_modified` returns `true` exactly when the two digests
are EQUAL (the inverse of its name), and its single caller negates the
result, so the pass appends a `modified` task exactly when the digests
differ. -/
theorem C10_inverted_equality (cfg : FolderSyncConfig) (srcRoot : Option Entry)
    (st : CreateSt) (src_file dest_file : List String) (a b : List Nat)
    (hs : lookupP srcRoot src_file = some (.file true a))
    (hd : lookupP st.fs dest_file = some (.file true b))
    (hne : dest_file ≠ []) :
    is_file_modified cfg.hashing_file_chunk_size srcRoot st.fs src_file dest_file =
      .ok (hexdigest (md5Absorb cfg.hashing_file_chunk_size a) ==
           hexdigest (md5Absorb cfg.hashing_file_chunk_size b))
    ∧ ∃ st', processSourceFile cfg srcRoot src_file dest_file st = .ok st' ∧
        st'.pending =
          (if hexdigest (md5Absorb cfg.hashing_file_chunk_size a) =
              hexdigest (md5Absorb cfg.hashing_file_chunk_size b)
           then st.pending
           else st.pending ++ [⟨src_file, dest_file, .modified⟩]) := by
  have hif : is_file_modified cfg.hashing_file_chunk_size srcRoot st.fs src_file dest_file =
      .ok (hexdigest (md5Absorb cfg.hashing_file_chunk_size a) ==
          hexdigest (md5Absorb cfg.hashing_file_chunk_size b)) := by
    simp [is_file_modified, create_hash_file, hs, hd]
  have hex : existsPath st.fs dest_file = true := by simp [existsPath, hd]
  refine ⟨hif, ?_⟩
  by_cases hq : hexdigest (md5Absorb cfg.hashing_file_chunk_size a) =
      hexdigest (md5Absorb cfg.hashing_file_chunk_size b)
  · refine ⟨{ st with log := st.log ++ [.debugNotModified] }, ?_, ?_⟩
    · simp [processSourceFile, hex, hif, beq_iff_eq.mpr hq]
    · simp [hq]
  · obtain ⟨fs', hrm⟩ := osRemove_ok_of_file st.fs dest_file true b hd hne
    refine ⟨{ st with
              fs := fs'
              log := st.log ++ [.infoOldFileDeleted dest_file]
              pending := st.pending ++ [⟨src_file, dest_file, .modified⟩] }, ?_, ?_⟩
    · simp [processSourceFile, hex, hif, beq_eq_false_iff_ne.mpr hq, hrm]
    · simp [hq]

/-- C10 witness: concrete instance with digests `[1]` versus `[2]`. -/
theorem C10_witness :
    is_file_modified cfg0.hashing_file_chunk_size srcW stW.fs ["a"] ["a"] =
      .ok (hexdigest (md5Absorb cfg0.hashing_file_chunk_size [1]) ==
           hexdigest (md5Absorb cfg0.hashing_file_chunk_size [2]))
    ∧ ∃ st', processSourceFile cfg0 srcW ["a"] ["a"] stW = .ok st' ∧
        st'.pending =
          (if hexdigest (md5Absorb cfg0.hashing_file_chunk_size [1]) =
              hexdigest (md5Absorb cfg0.hashing_file_chunk_size [2])
           then stW.pending
           else stW.pending ++ [⟨["a"], ["a"], .modified⟩]) :=
  C10_inverted_equality cfg0 srcW stW ["a"] ["a"] [1] [2] rfl rfl (by decide)

end FolderSync
